import Mathlib

/-!
Verification development for the komi-reader-hub directory-scanning and
entity-persistence subsystem.

The definitions below are a shallow embedding of the TypeScript/JavaScript
source:
* the recursive scanner `scanForComics` inside the `read-directory` IPC
  handler of the Electron main process,
* the standalone `scanDirectoryForComics` helper of
  `electron/scanDirectory.cjs`,
* the merge step `convertComicFolderToComic` and `mergeReadingProgress`
  of the library component,
* the `EnhancedFileStorage` operations (`saveComic`, `getComic`,
  `deleteComic`, `getAllComics`, `renameComicFolder`),
* the `rename-folder` IPC handler,
* the genre-deletion usage check `checkGenreUsage` of the genre manager.

Conventions of the embedding:
* JavaScript strings are Lean `String`; the default `Array.prototype.sort`
  comparison (UTF-16 code units, ascending) is embedded as insertion sort
  with Lean's code-point order on `String` (identical on the basic
  multilingual plane),
* `Date` values are carried as opaque strings (their ISO rendering),
* JavaScript objects used as string-keyed maps are association lists,
* filesystem reads are modelled by an explicit tree in which each
  directory carries a `readable` flag (an unreadable directory is one
  whose `readdirSync` throws),
* write failures are modelled by an environment `String → Bool` giving
  the success of each attempted file write.
-/

namespace KomiReader

/-! ## JavaScript string primitives -/

/-- ASCII embedding of `String.prototype.toLowerCase`. -/
def jsToLower (s : String) : String :=
  String.mk (s.toList.map Char.toLower)

/-- The ASCII part of the JavaScript regex class `\s`. -/
def isJsWhitespace (c : Char) : Bool :=
  c = ' ' || c = '\t' || c = '\n' || c = '\r' || c = '\x0b' || c = '\x0c'

/-- `replace(/\s+/g, r)`: replace every maximal whitespace run by `r`. -/
def replaceWsRuns (r : Char) : List Char → List Char
  | [] => []
  | c :: cs =>
    if isJsWhitespace c then
      match replaceWsRuns r cs with
      | [] => [r]
      | d :: ds => if d = r ∧ (cs.headD 'a' |> isJsWhitespace) then d :: ds else r :: d :: ds
  else c :: replaceWsRuns r cs

/-- `name.toLowerCase().replace(/\s+/g, '-')` as used for scan ids. -/
def slugify (s : String) : String :=
  String.mk (replaceWsRuns '-' (jsToLower s).toList)

/-- UTF-8 byte sequence of a character (the model used by `Buffer.from`). -/
def utf8Bytes (c : Char) : List Nat :=
  let n := c.toNat
  if n < 0x80 then [n]
  else if n < 0x800 then [0xc0 + n / 64, 0x80 + n % 64]
  else if n < 0x10000 then [0xe0 + n / 4096, 0x80 + n / 64 % 64, 0x80 + n % 64]
  else [0xf0 + n / 262144, 0x80 + n / 4096 % 64, 0x80 + n / 64 % 64, 0x80 + n % 64]

/-- UTF-8 bytes of a string. -/
def strBytes (s : String) : List Nat :=
  s.toList.flatMap utf8Bytes

/-- The base64 alphabet. -/
def b64Alphabet : List Char :=
  "ABCDEFGHIJKLMNOPQRSTUVWXYZabcdefghijklmnopqrstuvwxyz0123456789+/".toList

/-- One base64 digit. -/
def b64Digit (n : Nat) : Char :=
  b64Alphabet.getD n 'A'

/-- `Buffer.toString('base64')` on a byte list. -/
def base64Encode : List Nat → List Char
  | [] => []
  | [a] => [b64Digit (a / 4), b64Digit (a % 4 * 16), '=', '=']
  | [a, b] => [b64Digit (a / 4), b64Digit (a % 4 * 16 + b / 16), b64Digit (b % 16 * 4), '=']
  | a :: b :: c :: rest =>
    b64Digit (a / 4) :: b64Digit (a % 4 * 16 + b / 16) ::
      b64Digit (b % 16 * 4 + c / 64) :: b64Digit (c % 64) :: base64Encode rest

/-- `Buffer.from(s).toString('base64').substring(0, 8)`. -/
def pathHash8 (s : String) : String :=
  String.mk ((base64Encode (strBytes s)).take 8)

/-- POSIX `path.join` for a directory and a simple child name. -/
def pathJoin (dir name : String) : String :=
  dir ++ "/" ++ name

/-- Split a character list at every slash. -/
def splitSlashAux : List Char → List Char → List String
  | [], acc => [String.mk acc.reverse]
  | c :: cs, acc =>
    if c = '/' then String.mk acc.reverse :: splitSlashAux cs []
    else splitSlashAux cs (c :: acc)

/-- Path components of a path string. -/
def pathParts (p : String) : List String :=
  splitSlashAux p.toList []

/-- Join path components with slashes. -/
def joinParts : List String → String
  | [] => ""
  | [s] => s
  | s :: rest => s ++ "/" ++ joinParts rest

/-- POSIX `path.dirname`: everything before the final slash. -/
def pathDirname (p : String) : String :=
  joinParts (pathParts p).dropLast

/-- POSIX `path.basename`: the component after the final slash. -/
def pathBasename (p : String) : String :=
  (pathParts p).getLastD ""

/-- `path.relative(root, p)` for the paths built by the scanner, which are
always `root ++ "/" ++ rel`: strip the root and the separator. -/
def pathRelative (root p : String) : String :=
  String.mk (p.toList.drop (root.toList.length + 1))

/-- `replace(/\\/g, ' / ')` applied to display titles. -/
def renderSeparators (s : String) : String :=
  String.mk (s.toList.flatMap fun c => if c = '\\' then " / ".toList else [c])

/-- Suffix test on strings, by character lists. -/
def strEndsWith (s suffix : String) : Bool :=
  List.isSuffixOf suffix.toList s.toList

/-- The ascending comparison used by the default JavaScript
`Array.prototype.sort` on strings: lexicographic on code units. -/
def strListLe : List Char → List Char → Bool
  | [], _ => true
  | _ :: _, [] => false
  | a :: as, b :: bs =>
    if a.toNat < b.toNat then true
    else if b.toNat < a.toNat then false
    else strListLe as bs

/-- The JavaScript string order as a proposition. -/
def jsLe (a b : String) : Prop :=
  strListLe a.toList b.toList = true

instance : DecidableRel jsLe := fun a b =>
  inferInstanceAs (Decidable (strListLe a.toList b.toList = true))

/-- `strListLe` is total. -/
theorem strListLe_total : ∀ as bs, strListLe as bs = true ∨ strListLe bs as = true
  | [], _ => Or.inl rfl
  | _ :: _, [] => Or.inr rfl
  | a :: as, b :: bs => by
    rcases strListLe_total as bs with h | h <;>
      · simp only [strListLe]
        split_ifs <;> simp_all

/-- `strListLe` is transitive. -/
theorem strListLe_trans :
    ∀ as bs cs, strListLe as bs = true → strListLe bs cs = true →
      strListLe as cs = true
  | [], _, _ => by intro _ _; rfl
  | _ :: _, [], _ => by intro h _; simp [strListLe] at h
  | _ :: _, _ :: _, [] => by intro _ h; simp [strListLe] at h
  | a :: as, b :: bs, c :: cs => by
    have ih := strListLe_trans as bs cs
    simp only [strListLe]
    split_ifs <;> simp_all <;> omega

instance : IsTotal String jsLe :=
  ⟨fun a b => strListLe_total a.toList b.toList⟩

instance : IsTrans String jsLe :=
  ⟨fun a b c => strListLe_trans a.toList b.toList c.toList⟩

/-- The default JavaScript `Array.prototype.sort` on an array of strings:
ascending lexicographic comparison of code units. -/
def jsSortStrings (l : List String) : List String :=
  l.insertionSort jsLe

/-! ## Filesystem model -/

/-- A directory entry as seen through `readdirSync(..., { withFileTypes: true })`.
A directory carries the `readable` flag (false when `readdirSync` on it
throws), its `mtime` rendering, and its entries in readdir order. -/
inductive FSEntry where
  | file (name : String)
  | dir (name : String) (readable : Bool) (mtime : String) (entries : List FSEntry)
deriving Repr

/-- Name of an entry. -/
def FSEntry.name : FSEntry → String
  | .file n => n
  | .dir n _ _ _ => n

/-- The scanner regex `/\.(jpg|jpeg|png|webp|gif)$/i`. -/
def isImageName (s : String) : Bool :=
  let l := jsToLower s
  strEndsWith l ".jpg" || strEndsWith l ".jpeg" || strEndsWith l ".png" ||
    strEndsWith l ".webp" || strEndsWith l ".gif"

/-- `item.isFile() && /\.(jpg|jpeg|png|webp|gif)$/i.test(item.name)` over a
directory listing: the names of the plain image files, in readdir order. -/
def imageNames (entries : List FSEntry) : List String :=
  (entries.filterMap fun e =>
    match e with
    | .file n => if isImageName n then some n else none
    | .dir _ _ _ _ => none)

/-- The dirent filter of the scan loop:
`dirent.isDirectory() && !dirent.name.startsWith('.') && dirent.name !== '__MACOSX'`. -/
def visibleDirName (name : String) : Bool :=
  !(List.isPrefixOf ".".toList name.toList) && name ≠ "__MACOSX"

/-! ## The recursive scanner of the `read-directory` IPC handler -/

/-- The record pushed for a comic folder by `scanForComics`. -/
structure ComicFolder where
  id : String
  title : String
  displayTitle : String
  folderPath : String
  coverImage : String
  totalPages : Nat
  pages : List String
  lastModified : String
  author : String
  depth : Nat
deriving Repr, DecidableEq

/-- The record literal pushed by `scanForComics` when a folder contains
image files; `imgs` is the sorted image file list. -/
def mkComicRecord (rootPath fullPath name : String) (depth : Nat)
    (mtime : String) (imgs : List String) : ComicFolder :=
  { id := slugify name ++ "-" ++ toString depth ++ "-" ++ pathHash8 fullPath
    title := name
    displayTitle := renderSeparators (pathRelative rootPath fullPath)
    folderPath := fullPath
    coverImage := "file://" ++ pathJoin fullPath (imgs.headD "")
    totalPages := imgs.length
    pages := imgs.map fun f => "file://" ++ pathJoin fullPath f
    lastModified := mtime
    author := pathBasename (pathDirname fullPath)
    depth := depth }

/-- The body of the `for (const dirent of files)` loop of `scanForComics`,
iterated over a readdir listing.  The recursive call
`scanForComics(fullPath, depth + 1)` is inlined: it first re-checks
`depth > maxDepth` (with the incremented depth) and re-reads the directory,
which is already known readable at that point. -/
def scanEntries (rootPath : String) : String → Nat → List FSEntry → List ComicFolder
  | _, _, [] => []
  | dirPath, depth, e :: rest =>
    (match e with
     | .file _ => []
     | .dir name r mtime sub =>
       if visibleDirName name then
         if r then
           let fullPath := pathJoin dirPath name
           let imgs := jsSortStrings (imageNames sub)
           if imgs.isEmpty then
             if depth + 1 > 10 then []
             else scanEntries rootPath fullPath (depth + 1) sub
           else [mkComicRecord rootPath fullPath name depth mtime imgs]
         else []
       else [])
    ++ scanEntries rootPath dirPath depth rest
termination_by _ _ l => sizeOf l
decreasing_by
  all_goals simp_wf
  all_goals omega

/-- `scanForComics(dirPath, depth)` applied to a directory node: return
nothing past the depth cap, return nothing when `readdirSync` throws
(the error is only logged), otherwise run the loop over the listing. -/
def scanForComics (rootPath : String) (e : FSEntry) (dirPath : String)
    (depth : Nat) : List ComicFolder :=
  match e with
  | .file _ => []
  | .dir _ r _ entries =>
    if depth > 10 then []
    else if r then scanEntries rootPath dirPath depth entries
    else []

/-- The result shape `{ comics, totalComics, errors }`. -/
structure DirectoryScanResult where
  comics : List ComicFolder
  totalComics : Nat
  errors : List String
deriving Repr, DecidableEq

/-- The `read-directory` IPC handler: run `scanForComics(directoryPath)`
(which never throws — every filesystem read inside it is wrapped in its own
try/catch that only logs) and return the result with an empty error list. -/
def readDirectoryHandler (root : FSEntry) (directoryPath : String) :
    DirectoryScanResult :=
  let comics := scanForComics directoryPath root directoryPath 0
  { comics := comics, totalComics := comics.length, errors := [] }

/-! ## String-keyed maps (JavaScript objects) -/

/-- Lookup in a string-keyed object. -/
def getKey (k : String) : List (String × α) → Option α
  | [] => none
  | (k₂, v) :: rest => if k₂ = k then some v else getKey k rest

/-- `obj[k] = v`: replace in place, or append a fresh key. -/
def setKey (k : String) (v : α) : List (String × α) → List (String × α)
  | [] => [(k, v)]
  | (k₂, v₂) :: rest =>
    if k₂ = k then (k, v) :: rest else (k₂, v₂) :: setKey k v rest

/-- `delete obj[k]`. -/
def delKey (k : String) : List (String × α) → List (String × α)
  | [] => []
  | (k₂, v) :: rest => if k₂ = k then delKey k rest else (k₂, v) :: delKey k rest

/-! ## Comic records -/

/-- The four genre tiers of a comic (`comicGenres`). -/
structure ComicGenres where
  protagonist : List String
  antagonist : List String
  supporting : List String
  narrative : List String
deriving Repr, DecidableEq

/-- The persisted per-comic record (`ComicData` of `fileStorage.ts`).
Optional TypeScript fields are `Option`; dates are their string
renderings. -/
structure ComicData where
  id : String
  title : String
  author : Option String
  groupAuthor : Option String
  description : Option String
  genre : Option String
  comicGenres : Option ComicGenres
  coverImage : Option String
  totalPages : Nat
  currentPage : Nat
  folderPath : String
  lastRead : Option String
  lastReadDate : Option String
  pages : Option (List String)
deriving Repr, DecidableEq

/-- The UI-side record produced by `convertComicFolderToComic`. -/
structure Comic where
  id : String
  title : String
  author : String
  genre : Option String
  comicGenres : Option ComicGenres
  description : Option String
  genres : List String
  coverImage : String
  totalPages : Nat
  currentPage : Nat
  lastRead : Option String
  lastReadDate : Option String
  folderPath : String
  pages : List String
deriving Repr, DecidableEq

/-- `fileStorage.getComic(id)`: read the per-id file
`comics/comic_<id>.json`; absent is a normal result.  The per-id files are
modelled as an id-keyed map. -/
def getComic (comicFiles : List (String × ComicData)) (comicId : String) :
    Option ComicData :=
  getKey comicId comicFiles

/-- `convertComicFolderToComic`: merge one scanned folder with the loaded
metadata.  JavaScript `||` defaulting treats the empty string as absent. -/
def convertComicFolderToComic (cf : ComicFolder) (metadata : Option ComicData) :
    Comic :=
  let coverImage := if cf.coverImage = "" then "/placeholder.svg" else cf.coverImage
  { id := cf.id
    title :=
      match metadata with
      | some m => if m.title = "" then cf.title else m.title
      | none => cf.title
    author :=
      match metadata with
      | some m =>
        match m.author with
        | some a => if a = "" then "Unknown" else a
        | none => "Unknown"
      | none => "Unknown"
    genre := metadata.bind (·.genre)
    comicGenres := metadata.bind (·.comicGenres)
    description := metadata.bind (·.description)
    genres := []
    coverImage := coverImage
    totalPages := cf.totalPages
    currentPage := 1
    lastRead := some cf.lastModified
    lastReadDate := none
    folderPath := cf.folderPath
    pages := cf.pages }

/-- The conversion step of `handleRefresh` / `handleScanDirectory`:
`result.comics.map(convertComicFolderToComic)`, where each conversion
loads the persisted record for the scanned id. -/
def refreshComics (comicFiles : List (String × ComicData))
    (scanned : List ComicFolder) : List Comic :=
  scanned.map fun cf => convertComicFolderToComic cf (getComic comicFiles cf.id)

/-! ## Reading progress merge -/

/-- One entry of the reading-progress map; both fields can be absent in
the stored JSON. -/
structure ProgressEntry where
  lastRead : Option String
  currentPage : Option Nat
deriving Repr, DecidableEq

/-- `mergeReadingProgress(comics, readingProgress)`. -/
def mergeReadingProgress (comics : List Comic)
    (readingProgress : List (String × ProgressEntry)) : List Comic :=
  comics.map fun comic =>
    match getKey comic.id readingProgress with
    | none => comic
    | some progress =>
      { comic with
        lastRead := progress.lastRead
        lastReadDate :=
          match progress.lastRead with
          | some d => some d
          | none => comic.lastReadDate
        currentPage := progress.currentPage.getD comic.currentPage }

/-! ## The entity store (`EnhancedFileStorage`) -/

/-- One entry of `libraryIndex.comics`. -/
structure IndexEntry where
  title : String
  folderPath : String
  lastModified : String
deriving Repr, DecidableEq

/-- The shared index `{ comics, lastScan, totalComics }`. -/
structure LibraryIndex where
  comics : List (String × IndexEntry)
  lastScan : String
  totalComics : Nat
deriving Repr, DecidableEq

/-- The storage state: the per-id comic files, the in-memory index and
the persisted copy of the index file. -/
structure FileStore where
  comicFiles : List (String × ComicData)
  libraryIndex : LibraryIndex
  diskIndex : LibraryIndex
deriving Repr, DecidableEq

/-- The per-id file name `comic_<id>.json`. -/
def comicFileName (comicId : String) : String :=
  "comic_" ++ comicId ++ ".json"

/-- The index file name. -/
def indexFileName : String :=
  "library_index.json"

/-- `saveComic(comic)` under a write environment `env` (the success of
each attempted file write).  Returns the new state, the returned boolean
and the trace of attempted writes in order.  The result of the index
write is not inspected by the source: the method returns `true` as soon
as the per-id write succeeded. -/
def saveComic (env : String → Bool) (st : FileStore) (comic : ComicData)
    (now : String) : FileStore × Bool × List (String × Bool) :=
  let fname := comicFileName comic.id
  if env fname then
    let st1 := { st with comicFiles := setKey comic.id comic st.comicFiles }
    let newIndex :=
      { st.libraryIndex with
        comics := setKey comic.id
          ⟨comic.title, comic.folderPath, now⟩ st.libraryIndex.comics }
    let ok2 := env indexFileName
    ({ st1 with
        libraryIndex := newIndex
        diskIndex := if ok2 then newIndex else st1.diskIndex },
      true, [(fname, true), (indexFileName, ok2)])
  else (st, false, [(fname, false)])

/-- `deleteComic(id)`: drop the index entry, persist the index, return
`true`; the per-id file is not touched. -/
def deleteComic (env : String → Bool) (st : FileStore) (comicId : String) :
    FileStore × Bool × List (String × Bool) :=
  let newIndex :=
    { st.libraryIndex with comics := delKey comicId st.libraryIndex.comics }
  let ok := env indexFileName
  ({ st with
      libraryIndex := newIndex
      diskIndex := if ok then newIndex else st.diskIndex },
    true, [(indexFileName, ok)])

/-- `getAllComics()`: iterate the index keys, load each per-id file and
skip missing ones. -/
def getAllComics (st : FileStore) : List ComicData :=
  st.libraryIndex.comics.filterMap fun p => getComic st.comicFiles p.1

/-! ## Genre catalog and usage-checked deletion -/

/-- The three-category genre catalog. -/
structure GenreCatalog where
  personality : List String
  verb : List String
  plot : List String
deriving Repr, DecidableEq

/-- A catalog category. -/
inductive GenreCategory where
  | personality
  | verb
  | plot
deriving Repr, DecidableEq

/-- Category projection. -/
def GenreCatalog.category (g : GenreCatalog) : GenreCategory → List String
  | .personality => g.personality
  | .verb => g.verb
  | .plot => g.plot

/-- Replace one category. -/
def GenreCatalog.setCategory (g : GenreCatalog) :
    GenreCategory → List String → GenreCatalog
  | .personality, l => { g with personality := l }
  | .verb, l => { g with verb := l }
  | .plot, l => { g with plot := l }

/-- `Object.values(comic.comicGenres).some(list => list.includes(value))`:
the deleted value occurs in some tier of the comic. -/
def comicHasGenre (value : String) (c : ComicData) : Bool :=
  match c.comicGenres with
  | none => false
  | some g =>
    g.protagonist.contains value || g.antagonist.contains value ||
      g.supporting.contains value || g.narrative.contains value

/-- The entries kept for an affected comic. -/
structure AffectedComic where
  id : String
  title : String
  folderPath : String
deriving Repr, DecidableEq

/-- The de-duplication key: `comic.folderPath || comic.title`. -/
def affectedKey (c : ComicData) : String :=
  if c.folderPath = "" then c.title else c.folderPath

/-- The collection loop of `checkGenreUsage`: walk the library in order,
keep the first comic per key. -/
def collectAffected (value : String) :
    List ComicData → List String → List AffectedComic
  | [], _ => []
  | c :: rest, seen =>
    if comicHasGenre value c then
      if seen.contains (affectedKey c) then collectAffected value rest seen
      else ⟨c.id, c.title, c.folderPath⟩ :: collectAffected value rest (affectedKey c :: seen)
    else collectAffected value rest seen

/-- `checkGenreUsage(category, index, value)` run against the loaded
library: returns the catalog after the call together with the affected
list it reports.  An empty affected list deletes the entry at `index`
immediately; otherwise nothing is mutated and the alert is shown with
the affected list. -/
def checkGenreUsage (genres : GenreCatalog) (allComics : List ComicData)
    (category : GenreCategory) (index : Nat) (value : String) :
    GenreCatalog × List AffectedComic :=
  let affected := collectAffected value allComics []
  if affected.isEmpty then
    (genres.setCategory category ((genres.category category).eraseIdx index), [])
  else (genres, affected)

/-! ## Folder rename -/

/-- An on-disk folder map: path to the folder contents (its file names). -/
abbrev FolderFS : Type :=
  List (String × List String)

/-- `fs.existsSync` on the folder map. -/
def FolderFS.existsPath (fs : FolderFS) (p : String) : Bool :=
  (getKey p fs).isSome

/-- The `rename-folder` IPC handler: fail without mutation when the old
path is missing or the new path is present, otherwise move the folder. -/
def renameFolderIpc (fs : FolderFS) (oldPath newPath : String) :
    FolderFS × Bool :=
  if !fs.existsPath oldPath then (fs, false)
  else if fs.existsPath newPath then (fs, false)
  else (setKey newPath ((getKey oldPath fs).getD []) (delKey oldPath fs), true)

/-- The sanitized character set `[<>:"/\\|?*]` is replaced by `_`. -/
def sanitizeChar (c : Char) : Char :=
  if c = '<' ∨ c = '>' ∨ c = ':' ∨ c = '"' ∨ c = '/' ∨ c = '\\' ∨
      c = '|' ∨ c = '?' ∨ c = '*' then '_'
  else c

/-- Strip leading and trailing whitespace (`String.prototype.trim`). -/
def jsTrim (s : String) : String :=
  String.mk (((s.toList.dropWhile isJsWhitespace).reverse.dropWhile
    isJsWhitespace).reverse)

/-- `sanitizeTitle`: replace invalid characters, collapse whitespace
runs to single spaces, trim. -/
def sanitizeTitle (t : String) : String :=
  jsTrim (String.mk (replaceWsRuns ' ' (t.toList.map sanitizeChar)))

/-- `renameComicFolder(oldTitle, newTitle, oldPath)`: no-op when the
sanitized names agree, otherwise compute the sibling path and delegate
to the `rename-folder` handler; `none` models the `null` failure
result.  It never touches the entity store. -/
def renameComicFolder (fs : FolderFS) (oldTitle newTitle oldPath : String) :
    FolderFS × Option String :=
  let oldFolderName := sanitizeTitle oldTitle
  let newFolderName := sanitizeTitle newTitle
  if oldFolderName = newFolderName then (fs, some oldPath)
  else
    let directoryPath := pathDirname oldPath
    let newPath := directoryPath ++ "/" ++ newFolderName
    let (fs2, ok) := renameFolderIpc fs oldPath newPath
    (fs2, if ok then some newPath else none)

/-! ## The standalone scanner of `electron/scanDirectory.cjs` -/

/-- The cjs image regex also accepts `bmp`. -/
def isImageNameCjs (s : String) : Bool :=
  let l := jsToLower s
  strEndsWith l ".jpg" || strEndsWith l ".jpeg" || strEndsWith l ".png" ||
    strEndsWith l ".gif" || strEndsWith l ".webp" || strEndsWith l ".bmp"

/-- The record pushed by `scanDirectoryForComics` (no recursion, cover
may be absent). -/
structure CjsRecord where
  id : String
  title : String
  folderPath : String
  coverImage : Option String
  totalPages : Nat
  pages : List String
  lastModified : String
deriving Repr, DecidableEq

/-- The result shape of the cjs scanner. -/
structure CjsScanResult where
  comics : List CjsRecord
  totalComics : Nat
  errors : List String
deriving Repr, DecidableEq

/-- The `folders.forEach` loop of `scanDirectoryForComics`: every
visible immediate subdirectory yields a record (even with zero images);
a failing per-folder read pushes one error.  The plain `readdirSync`
returns all entry names, so no `isFile` filter is applied. -/
def cjsProcessFolders (directoryPath : String) :
    List FSEntry → List CjsRecord × List String
  | [] => ([], [])
  | e :: rest =>
    let (cs, es) := cjsProcessFolders directoryPath rest
    match e with
    | .file _ => (cs, es)
    | .dir name r mtime sub =>
      if visibleDirName name then
        if r then
          let folderPath := pathJoin directoryPath name
          let imageFiles := jsSortStrings ((sub.map FSEntry.name).filter isImageNameCjs)
          let pages := imageFiles.map fun img => "file://" ++ pathJoin folderPath img
          ({ id := slugify name
             title := name
             folderPath := folderPath
             coverImage := pages.head?
             totalPages := pages.length
             pages := pages
             lastModified := mtime } :: cs, es)
        else (cs, ("Failed to process folder " ++ name) :: es)
      else (cs, es)

/-- `scanDirectoryForComics(directoryPath)`: an unreadable root is caught
by the outer try/catch and reported as exactly one error. -/
def scanDirectoryForComicsCjs (root : FSEntry) (directoryPath : String) :
    CjsScanResult :=
  match root with
  | .file _ => { comics := [], totalComics := 0, errors := ["Failed to scan directory"] }
  | .dir _ r _ entries =>
    if r then
      let (cs, es) := cjsProcessFolders directoryPath entries
      { comics := cs, totalComics := cs.length, errors := es }
    else { comics := [], totalComics := 0, errors := ["Failed to scan directory"] }

/-! ## Helper lemmas -/

theorem getKey_setKey_self (k : String) (v : α) :
    ∀ l : List (String × α), getKey k (setKey k v l) = some v := by
  intro l
  induction l with
  | nil => simp [setKey, getKey]
  | cons p rest ih =>
    by_cases h : p.1 = k <;> simp [setKey, getKey, h, ih]

theorem getKey_delKey_self (k : String) :
    ∀ l : List (String × α), getKey k (delKey k l) = none
  | [] => rfl
  | (k₂, v) :: rest => by
    by_cases h : k₂ = k <;>
      simp [delKey, getKey, h, getKey_delKey_self k rest]

theorem getKey_delKey_ne (k k₂ : String) (hne : k ≠ k₂) :
    ∀ l : List (String × α), getKey k (delKey k₂ l) = getKey k l
  | [] => rfl
  | (k₃, v) :: rest => by
    have ih := getKey_delKey_ne k k₂ hne rest
    simp only [delKey]
    by_cases h : k₃ = k₂
    · have h₂ : ¬k₃ = k := by
        intro hk
        exact hne (by rw [← hk, h])
      rw [if_pos h, ih]
      simp only [getKey]
      rw [if_neg h₂]
    · rw [if_neg h]
      simp only [getKey]
      by_cases h₃ : k₃ = k
      · rw [if_pos h₃, if_pos h₃]
      · rw [if_neg h₃, if_neg h₃, ih]

theorem jsSortStrings_perm (l : List String) : (jsSortStrings l).Perm l :=
  List.perm_insertionSort jsLe l

theorem jsSortStrings_sorted (l : List String) :
    List.Sorted jsLe (jsSortStrings l) :=
  List.sorted_insertionSort jsLe l

theorem jsSortStrings_length (l : List String) :
    (jsSortStrings l).length = l.length :=
  (jsSortStrings_perm l).length_eq

theorem jsSortStrings_isEmpty_iff (l : List String) :
    (jsSortStrings l).isEmpty = true ↔ l = [] := by
  rw [List.isEmpty_iff]
  constructor
  · intro h
    have := (jsSortStrings_perm l).symm
    rw [h] at this
    exact this.eq_nil
  · intro h
    subst h
    rfl

theorem scanEntries_cons (rootPath dirPath : String) (depth : Nat)
    (e : FSEntry) (rest : List FSEntry) :
    scanEntries rootPath dirPath depth (e :: rest) =
      scanEntries rootPath dirPath depth [e] ++
        scanEntries rootPath dirPath depth rest := by
  cases e <;> simp only [scanEntries] <;> simp

theorem scanEntries_append (rootPath dirPath : String) (depth : Nat)
    (l₁ l₂ : List FSEntry) :
    scanEntries rootPath dirPath depth (l₁ ++ l₂) =
      scanEntries rootPath dirPath depth l₁ ++
        scanEntries rootPath dirPath depth l₂ := by
  induction l₁ with
  | nil => simp [scanEntries]
  | cons e rest ih =>
    rw [List.cons_append, scanEntries_cons, ih,
      scanEntries_cons rootPath dirPath depth e rest, List.append_assoc]

theorem scanEntries_path_ext (rootPath : String) :
    ∀ (dirPath : String) (depth : Nat) (l : List FSEntry) (rec : ComicFolder),
      rec ∈ scanEntries rootPath dirPath depth l →
      ∃ t : String, rec.folderPath = dirPath ++ "/" ++ t := by
  intro dirPath depth l
  induction dirPath, depth, l using scanEntries.induct rootPath with
  | case1 d dep =>
    intro rec h
    simp [scanEntries] at h
  | case2 d dep e rest ih1 ih2 =>
    intro rec h
    rw [scanEntries_cons] at h
    rcases List.mem_append.mp h with h | h
    · match e, ih1 with
      | .file n, _ => simp [scanEntries] at h
      | .dir name r mt sub, ih1 =>
        simp only [scanEntries, List.append_nil] at h
        simp only at ih1
        by_cases hv : visibleDirName name
        · rw [if_pos hv] at h
          by_cases hr : r = true
          · rw [if_pos hr] at h
            by_cases he : (jsSortStrings (imageNames sub)).isEmpty
            · rw [if_pos he] at h
              by_cases hd : dep + 1 > 10
              · rw [if_pos hd] at h
                simp at h
              · rw [if_neg hd] at h
                obtain ⟨t, ht⟩ := ih1 rec h
                refine ⟨name ++ "/" ++ t, ?_⟩
                rw [ht]
                simp [pathJoin, String.append_assoc]
            · rw [if_neg he] at h
              simp only [List.mem_singleton] at h
              subst h
              exact ⟨name, rfl⟩
          · rw [if_neg hr] at h
            simp at h
        · rw [if_neg hv] at h
          simp at h
    · exact ih2 rec h

theorem string_mk_toList (s : String) : String.mk s.toList = s := by
  cases s
  rfl

theorem string_mk_append (a b : List Char) :
    String.mk a ++ String.mk b = String.mk (a ++ b) :=
  rfl

theorem splitSlashAux_ne_nil : ∀ (l acc : List Char), splitSlashAux l acc ≠ []
  | [], acc => by simp [splitSlashAux]
  | c :: cs, acc => by
    by_cases h : c = '/' <;>
      simp [splitSlashAux, h, splitSlashAux_ne_nil cs]

theorem splitSlashAux_append :
    ∀ (l₁ l₂ acc : List Char),
      splitSlashAux (l₁ ++ '/' :: l₂) acc =
        splitSlashAux l₁ acc ++ splitSlashAux l₂ []
  | [], l₂, acc => by simp [splitSlashAux]
  | c :: cs, l₂, acc => by
    by_cases h : c = '/' <;>
      simp [splitSlashAux, h, splitSlashAux_append cs l₂]

theorem splitSlashAux_no_slash :
    ∀ (l acc : List Char), (∀ c ∈ l, c ≠ '/') →
      splitSlashAux l acc = [String.mk (acc.reverse ++ l)]
  | [], acc, _ => by simp [splitSlashAux]
  | c :: cs, acc, h => by
    have hc : c ≠ '/' := h c (by simp)
    have ih := splitSlashAux_no_slash cs (c :: acc) fun d hd => h d (by simp [hd])
    simp [splitSlashAux, hc, ih]

theorem joinParts_splitSlashAux :
    ∀ (l acc : List Char),
      joinParts (splitSlashAux l acc) = String.mk (acc.reverse ++ l)
  | [], acc => by simp [splitSlashAux, joinParts]
  | c :: cs, acc => by
    by_cases h : c = '/'
    · obtain ⟨x, xs, hx⟩ := List.exists_cons_of_ne_nil (splitSlashAux_ne_nil cs [])
      have ih := joinParts_splitSlashAux cs []
      subst h
      simp only [splitSlashAux, if_pos rfl, hx, joinParts]
      rw [← hx, ih]
      apply String.ext
      simp [String.data_append]
    · have ih := joinParts_splitSlashAux cs (c :: acc)
      simp only [splitSlashAux, if_neg h, ih]
      simp

theorem data_append (a b : String) : (a ++ b).toList = a.toList ++ b.toList :=
  rfl

theorem pathParts_join (d n : String) (hn : ∀ c ∈ n.toList, c ≠ '/') :
    pathParts (pathJoin d n) = pathParts d ++ [n] := by
  have : (pathJoin d n).toList = d.toList ++ '/' :: n.toList := by
    simp [pathJoin, data_append]
  rw [pathParts, this, splitSlashAux_append, splitSlashAux_no_slash n.toList [] hn]
  simp [pathParts, string_mk_toList]

theorem pathDirname_join (d n : String) (hn : ∀ c ∈ n.toList, c ≠ '/') :
    pathDirname (pathJoin d n) = d := by
  rw [pathDirname, pathParts_join d n hn, List.dropLast_concat]
  have := joinParts_splitSlashAux d.toList []
  simp only [List.reverse_nil, List.nil_append] at this
  rw [pathParts, this, string_mk_toList]

theorem pathBasename_join (d n : String) (hn : ∀ c ∈ n.toList, c ≠ '/') :
    pathBasename (pathJoin d n) = n := by
  rw [pathBasename, pathParts_join d n hn]
  simp

/-- The case-insensitive ascending order named by the specification for
page filenames.  This definition follows the specification text, not the
source, and is only compared against the source behaviour. -/
def ciLe (a b : String) : Prop :=
  strListLe (jsToLower a).toList (jsToLower b).toList = true

instance : DecidableRel ciLe := fun a b =>
  inferInstanceAs (Decidable (strListLe (jsToLower a).toList (jsToLower b).toList = true))

/-! ## Claim theorems -/

/-- C3 (amended): for every visible, readable folder containing at least
one supported image file, the scan emits exactly one record for it, whose
`totalPages` equals the number of image files and whose pages follow the
image filenames sorted ascending in the case-SENSITIVE code-unit order
(not case-insensitively), with the first page as the cover. -/
theorem C3_leaf_folder_record
    (rootPath dirPath : String) (depth : Nat) (name mtime : String)
    (sub pre post : List FSEntry)
    (hvis : visibleDirName name = true)
    (himg : imageNames sub ≠ []) :
    ∃ rec : ComicFolder,
      scanEntries rootPath dirPath depth
          (pre ++ FSEntry.dir name true mtime sub :: post) =
        scanEntries rootPath dirPath depth pre ++ rec ::
          scanEntries rootPath dirPath depth post ∧
      rec.folderPath = pathJoin dirPath name ∧
      rec.totalPages = (imageNames sub).length ∧
      ∃ imgs : List String,
        imgs.Perm (imageNames sub) ∧ List.Sorted jsLe imgs ∧
        rec.pages = imgs.map (fun f => "file://" ++ pathJoin (pathJoin dirPath name) f) ∧
        rec.coverImage = "file://" ++ pathJoin (pathJoin dirPath name) (imgs.headD "") := by
  have hne : (jsSortStrings (imageNames sub)).isEmpty ≠ true := fun h =>
    himg ((jsSortStrings_isEmpty_iff (imageNames sub)).mp h)
  refine ⟨mkComicRecord rootPath (pathJoin dirPath name) name depth mtime
    (jsSortStrings (imageNames sub)), ?_, rfl, ?_, ?_⟩
  · have hsingle :
        scanEntries rootPath dirPath depth [FSEntry.dir name true mtime sub] =
          [mkComicRecord rootPath (pathJoin dirPath name) name depth mtime
            (jsSortStrings (imageNames sub))] := by
      simp only [scanEntries, List.append_nil]
      simp [hvis, hne]
    rw [scanEntries_append, scanEntries_cons, hsingle]
    simp
  · exact jsSortStrings_length (imageNames sub)
  · exact ⟨jsSortStrings (imageNames sub), jsSortStrings_perm _,
      jsSortStrings_sorted _, rfl, rfl⟩

/-- C3 witness: the theorem applied to a folder with one image file. -/
theorem C3_leaf_folder_record_witness :
    ∃ rec : ComicFolder,
      scanEntries "/r" "/r" 0
          ([] ++ FSEntry.dir "X" true "t" [FSEntry.file "a.jpg"] :: []) =
        scanEntries "/r" "/r" 0 [] ++ rec :: scanEntries "/r" "/r" 0 [] ∧
      rec.folderPath = pathJoin "/r" "X" ∧
      rec.totalPages = (imageNames [FSEntry.file "a.jpg"]).length ∧
      ∃ imgs : List String,
        imgs.Perm (imageNames [FSEntry.file "a.jpg"]) ∧ List.Sorted jsLe imgs ∧
        rec.pages = imgs.map (fun f => "file://" ++ pathJoin (pathJoin "/r" "X") f) ∧
        rec.coverImage = "file://" ++ pathJoin (pathJoin "/r" "X") (imgs.headD "") :=
  C3_leaf_folder_record "/r" "/r" 0 "X" "t" [FSEntry.file "a.jpg"] [] []
    (by decide) (by decide)

/-- C3 counterexample: a folder holding `B.jpg` and `a.jpg` is emitted
with the pages in code-unit order `B.jpg`, `a.jpg`, which is not sorted
in the claimed case-insensitive order. -/
theorem C3_counterexample :
    (scanEntries "/Lib" "/Lib" 0
        [FSEntry.dir "SeriesX" true "2024" [FSEntry.file "B.jpg", FSEntry.file "a.jpg"]]).length = 1 ∧
    (scanEntries "/Lib" "/Lib" 0
        [FSEntry.dir "SeriesX" true "2024" [FSEntry.file "B.jpg", FSEntry.file "a.jpg"]]).map
        (fun r => r.pages.map pathBasename) = [["B.jpg", "a.jpg"]] ∧
    ¬ List.Sorted ciLe ["B.jpg", "a.jpg"] := by
  refine ⟨?_, ?_, ?_⟩
  · simp only [scanEntries]
    decide
  · simp only [scanEntries]
    decide
  · decide

/-- C4: a visible, readable folder with zero image files is a container:
the scan emits no record for it, recursing instead into its entries at
`depth + 1` (the recursive call returning nothing once the incremented
depth exceeds the maximum depth 10), the records found inside never carry
the container path itself, and the handler never reports an error. -/
theorem C4_container_recursion
    (rootPath dirPath : String) (depth : Nat) (name mtime : String)
    (sub pre post : List FSEntry)
    (hvis : visibleDirName name = true)
    (himg : imageNames sub = []) :
    scanEntries rootPath dirPath depth
        (pre ++ FSEntry.dir name true mtime sub :: post) =
      scanEntries rootPath dirPath depth pre ++
        (if depth + 1 > 10 then []
         else scanEntries rootPath (pathJoin dirPath name) (depth + 1) sub) ++
        scanEntries rootPath dirPath depth post ∧
    (∀ rec ∈ scanEntries rootPath (pathJoin dirPath name) (depth + 1) sub,
      rec.folderPath ≠ pathJoin dirPath name) ∧
    (∀ (root : FSEntry) (p : String), (readDirectoryHandler root p).errors = []) := by
  refine ⟨?_, ?_, fun _ _ => rfl⟩
  · have hempty : (jsSortStrings (imageNames sub)).isEmpty = true := by
      rw [himg]
      rfl
    have hsingle :
        scanEntries rootPath dirPath depth [FSEntry.dir name true mtime sub] =
          if depth + 1 > 10 then []
          else scanEntries rootPath (pathJoin dirPath name) (depth + 1) sub := by
      simp only [scanEntries, List.append_nil]
      simp [hvis, hempty]
    rw [scanEntries_append, scanEntries_cons, hsingle, List.append_assoc]
  · intro rec h hEq
    obtain ⟨t, ht⟩ :=
      scanEntries_path_ext rootPath (pathJoin dirPath name) (depth + 1) sub rec h
    rw [hEq] at ht
    have hlen := congrArg String.length ht
    simp only [String.length_append] at hlen
    have hone : ("/" : String).length = 1 := rfl
    omega

/-- C4 witness: the theorem applied to an empty container folder. -/
theorem C4_container_recursion_witness :
    scanEntries "/r" "/r" 0
        ([] ++ FSEntry.dir "Shelf" true "t" [FSEntry.file "readme.txt"] :: []) =
      scanEntries "/r" "/r" 0 [] ++
        (if 0 + 1 > 10 then []
         else scanEntries "/r" (pathJoin "/r" "Shelf") (0 + 1) [FSEntry.file "readme.txt"]) ++
        scanEntries "/r" "/r" 0 [] ∧
    (∀ rec ∈ scanEntries "/r" (pathJoin "/r" "Shelf") (0 + 1) [FSEntry.file "readme.txt"],
      rec.folderPath ≠ pathJoin "/r" "Shelf") ∧
    (∀ (root : FSEntry) (p : String), (readDirectoryHandler root p).errors = []) :=
  C4_container_recursion "/r" "/r" 0 "Shelf" "t" [FSEntry.file "readme.txt"] [] []
    (by decide) (by decide)

/-- C1 (amended): whenever a scanned folder has a persisted record whose
title is non-empty and whose author is present and non-empty, the merged
record produced by a refresh keeps the persisted title, author,
description, genre and all four genre tiers; a JavaScript-falsy (empty)
persisted title or author is instead replaced by the scan default. -/
theorem C1_merge_preserves_user_fields
    (comicFiles : List (String × ComicData)) (scanned : List ComicFolder)
    (cf : ComicFolder) (m : ComicData) (a : String)
    (hmem : cf ∈ scanned)
    (hget : getComic comicFiles cf.id = some m)
    (htitle : m.title ≠ "")
    (hauthor : m.author = some a) (ha : a ≠ "") :
    convertComicFolderToComic cf (some m) ∈ refreshComics comicFiles scanned ∧
    (convertComicFolderToComic cf (some m)).title = m.title ∧
    (convertComicFolderToComic cf (some m)).author = a ∧
    (convertComicFolderToComic cf (some m)).description = m.description ∧
    (convertComicFolderToComic cf (some m)).genre = m.genre ∧
    (convertComicFolderToComic cf (some m)).comicGenres = m.comicGenres := by
  refine ⟨?_, ?_, ?_, rfl, rfl, rfl⟩
  · exact List.mem_map.mpr ⟨cf, hmem, by rw [hget]⟩
  · simp [convertComicFolderToComic, htitle]
  · simp [convertComicFolderToComic, hauthor, ha]

/-- A scanned folder used to exercise the merge. -/
def sampleFolder : ComicFolder :=
  { id := "t-0-abcdefgh"
    title := "T"
    displayTitle := "T"
    folderPath := "/L/T"
    coverImage := "file:///L/T/a.jpg"
    totalPages := 1
    pages := ["file:///L/T/a.jpg"]
    lastModified := "t"
    author := "L"
    depth := 0 }

/-- A persisted record whose author was saved as the empty string. -/
def sampleSavedEmptyAuthor : ComicData :=
  { id := "t-0-abcdefgh"
    title := "T"
    author := some ""
    groupAuthor := none
    description := some "kept"
    genre := none
    comicGenres := some ⟨["brave"], [], [], []⟩
    coverImage := none
    totalPages := 1
    currentPage := 1
    folderPath := "/L/T"
    lastRead := none
    lastReadDate := none
    pages := none }

/-- C1 witness: the preservation theorem applied to a record with
author `"X"` and tag `"brave"`. -/
theorem C1_merge_preserves_user_fields_witness :
    convertComicFolderToComic sampleFolder
        (some { sampleSavedEmptyAuthor with author := some "X" }) ∈
      refreshComics [("t-0-abcdefgh", { sampleSavedEmptyAuthor with author := some "X" })]
        [sampleFolder] ∧
    (convertComicFolderToComic sampleFolder
        (some { sampleSavedEmptyAuthor with author := some "X" })).title =
      ({ sampleSavedEmptyAuthor with author := some "X" } : ComicData).title ∧
    (convertComicFolderToComic sampleFolder
        (some { sampleSavedEmptyAuthor with author := some "X" })).author = "X" ∧
    (convertComicFolderToComic sampleFolder
        (some { sampleSavedEmptyAuthor with author := some "X" })).description =
      ({ sampleSavedEmptyAuthor with author := some "X" } : ComicData).description ∧
    (convertComicFolderToComic sampleFolder
        (some { sampleSavedEmptyAuthor with author := some "X" })).genre =
      ({ sampleSavedEmptyAuthor with author := some "X" } : ComicData).genre ∧
    (convertComicFolderToComic sampleFolder
        (some { sampleSavedEmptyAuthor with author := some "X" })).comicGenres =
      ({ sampleSavedEmptyAuthor with author := some "X" } : ComicData).comicGenres :=
  C1_merge_preserves_user_fields
    [("t-0-abcdefgh", { sampleSavedEmptyAuthor with author := some "X" })]
    [sampleFolder] sampleFolder
    { sampleSavedEmptyAuthor with author := some "X" } "X"
    (by decide) (by decide) (by decide) (by decide) (by decide)

/-- C1 counterexample: a persisted record whose saved author is the
empty string is merged back to the scan default `"Unknown"`, so the
persisted author value is not kept unchanged. -/
theorem C1_counterexample :
    getComic [("t-0-abcdefgh", sampleSavedEmptyAuthor)] sampleFolder.id =
      some sampleSavedEmptyAuthor ∧
    sampleSavedEmptyAuthor.author = some "" ∧
    (convertComicFolderToComic sampleFolder
        (getComic [("t-0-abcdefgh", sampleSavedEmptyAuthor)] sampleFolder.id)).author =
      "Unknown" ∧
    ("Unknown" : String) ≠ "" := by
  refine ⟨by decide, rfl, by decide, by decide⟩

/-- C2 (amended): for a scanned leaf folder with no persisted record the
scanner-side record does carry the parent directory name in its `author`
field, but the merged record's author is the literal `"Unknown"`: the
scan-derived parent name is not propagated by the merge. -/
theorem C2_default_author
    (comicFiles : List (String × ComicData)) (cf : ComicFolder)
    (hnone : getComic comicFiles cf.id = none)
    (rootPath dirPath : String) (depth : Nat) (name mtime : String)
    (sub : List FSEntry)
    (hvis : visibleDirName name = true)
    (himg : imageNames sub ≠ [])
    (hname : ∀ c ∈ name.toList, c ≠ '/') :
    (convertComicFolderToComic cf (getComic comicFiles cf.id)).author = "Unknown" ∧
    ∃ rec ∈ scanEntries rootPath dirPath depth [FSEntry.dir name true mtime sub],
      rec.author = pathBasename dirPath := by
  constructor
  · rw [hnone]
    rfl
  · have hne : (jsSortStrings (imageNames sub)).isEmpty ≠ true := fun h =>
      himg ((jsSortStrings_isEmpty_iff (imageNames sub)).mp h)
    have hsingle :
        scanEntries rootPath dirPath depth [FSEntry.dir name true mtime sub] =
          [mkComicRecord rootPath (pathJoin dirPath name) name depth mtime
            (jsSortStrings (imageNames sub))] := by
      simp only [scanEntries, List.append_nil]
      simp [hvis, hne]
    refine ⟨mkComicRecord rootPath (pathJoin dirPath name) name depth mtime
      (jsSortStrings (imageNames sub)), by simp [hsingle], ?_⟩
    show pathBasename (pathDirname (pathJoin dirPath name)) = pathBasename dirPath
    rw [pathDirname_join dirPath name hname]

/-- C2 witness: the theorem applied to the `/Lib/AuthorB` example. -/
theorem C2_default_author_witness :
    (convertComicFolderToComic sampleFolder (getComic [] sampleFolder.id)).author =
      "Unknown" ∧
    ∃ rec ∈ scanEntries "/Lib" "/Lib" 0
        [FSEntry.dir "AuthorB" true "t" [FSEntry.file "a.jpg"]],
      rec.author = pathBasename "/Lib" :=
  C2_default_author [] sampleFolder rfl "/Lib" "/Lib" 0 "AuthorB" "t"
    [FSEntry.file "a.jpg"] (by decide) (by decide) (by decide)

/-- C2 counterexample: in the `/Lib` example the scanner derives author
`Lib` from the parent folder, but the merged record produced for the
folder without persisted metadata has author `"Unknown"`, not `Lib`. -/
theorem C2_counterexample :
    (scanEntries "/Lib" "/Lib" 0
        [FSEntry.dir "AuthorB" true "t" [FSEntry.file "a.jpg"]]).map
        ComicFolder.author = ["Lib"] ∧
    (refreshComics [] (scanEntries "/Lib" "/Lib" 0
        [FSEntry.dir "AuthorB" true "t" [FSEntry.file "a.jpg"]])).map
        Comic.author = ["Unknown"] ∧
    ("Unknown" : String) ≠ "Lib" := by
  refine ⟨?_, ?_, by decide⟩ <;>
    · simp only [scanEntries]
      decide

/-- De-duplication of the affected list keyed by folder path alone,
following the specification text (first occurrence wins); compared
against the source behaviour below. -/
def dedupByFolderPath : List ComicData → List String → List AffectedComic
  | [], _ => []
  | c :: rest, seen =>
    if seen.contains c.folderPath then dedupByFolderPath rest seen
    else ⟨c.id, c.title, c.folderPath⟩ :: dedupByFolderPath rest (c.folderPath :: seen)

/-- When every record carries a non-empty folder path, the source
collection loop de-duplicates exactly by folder path. -/
theorem collectAffected_eq_dedup (value : String) :
    ∀ (l : List ComicData) (seen : List String),
      (∀ c ∈ l, c.folderPath ≠ "") →
      collectAffected value l seen =
        dedupByFolderPath (l.filter (comicHasGenre value)) seen
  | [], _, _ => rfl
  | c :: rest, seen, h => by
    have hc : c.folderPath ≠ "" := h c (by simp)
    have hrest : ∀ d ∈ rest, d.folderPath ≠ "" := fun d hd => h d (by simp [hd])
    have ih1 := collectAffected_eq_dedup value rest seen hrest
    have ih2 := collectAffected_eq_dedup value rest (c.folderPath :: seen) hrest
    by_cases hg : comicHasGenre value c = true <;>
      by_cases hs : c.folderPath ∈ seen <;>
        simp_all [collectAffected, dedupByFolderPath, affectedKey, List.filter_cons]

/-- C5: deleting a catalog value still referenced by some loaded record
mutates nothing and reports exactly the affected records de-duplicated
by folder path; deleting an unreferenced value removes the entry at the
requested index of its category immediately, with an empty affected
list.  (Assumes every loaded record has a non-empty folder path, which
is how records are created by the scanner.) -/
theorem C5_tag_deletion_safety
    (st : FileStore) (genres : GenreCatalog) (category : GenreCategory)
    (index : Nat) (value : String)
    (hpaths : ∀ c ∈ getAllComics st, c.folderPath ≠ "")
    (hidx : (genres.category category).get? index = some value) :
    ((∃ c ∈ getAllComics st, comicHasGenre value c = true) →
      checkGenreUsage genres (getAllComics st) category index value =
        (genres,
          dedupByFolderPath ((getAllComics st).filter (comicHasGenre value)) []) ∧
      dedupByFolderPath ((getAllComics st).filter (comicHasGenre value)) [] ≠ []) ∧
    ((∀ c ∈ getAllComics st, comicHasGenre value c = false) →
      checkGenreUsage genres (getAllComics st) category index value =
        (genres.setCategory category ((genres.category category).eraseIdx index), []) ∧
      ((genres.category category).eraseIdx index).length =
        (genres.category category).length - 1) := by
  have hcoll := collectAffected_eq_dedup value (getAllComics st) [] hpaths
  constructor
  · rintro ⟨c, hcmem, hcg⟩
    have hfil : c ∈ (getAllComics st).filter (comicHasGenre value) :=
      List.mem_filter.mpr ⟨hcmem, hcg⟩
    obtain ⟨x, xs, hx⟩ := List.exists_cons_of_ne_nil (List.ne_nil_of_mem hfil)
    have hded : dedupByFolderPath ((getAllComics st).filter (comicHasGenre value)) [] ≠ [] := by
      rw [hx]
      simp [dedupByFolderPath]
    have hne : ¬(collectAffected value (getAllComics st) []).isEmpty = true := by
      rw [hcoll, List.isEmpty_iff]
      exact hded
    constructor
    · rw [checkGenreUsage, if_neg hne, hcoll]
    · exact hded
  · intro hall
    have hfil : (getAllComics st).filter (comicHasGenre value) = [] := by
      rw [List.filter_eq_nil_iff]
      intro c hcmem
      simp [hall c hcmem]
    have hemp : (collectAffected value (getAllComics st) []).isEmpty = true := by
      rw [hcoll, hfil]
      rfl
    constructor
    · rw [checkGenreUsage, if_pos hemp]
    · obtain ⟨hlt, -⟩ := List.get?_eq_some.mp hidx
      rw [List.length_eraseIdx, if_pos hlt]

/-- The persisted record used for the genre-deletion witness. -/
def sampleTaggedComic : ComicData :=
  { sampleSavedEmptyAuthor with
    id := "c1"
    author := some "X"
    folderPath := "/p"
    comicGenres := some ⟨["brave"], [], [], []⟩ }

/-- The store used for the genre-deletion witness. -/
def sampleStore : FileStore :=
  { comicFiles := [("c1", sampleTaggedComic)]
    libraryIndex := { comics := [("c1", ⟨"T", "/p", "t"⟩)], lastScan := "", totalComics := 1 }
    diskIndex := { comics := [("c1", ⟨"T", "/p", "t"⟩)], lastScan := "", totalComics := 1 } }

/-- C5 witness: the theorem applied to a catalog with one referenced
value. -/
theorem C5_tag_deletion_safety_witness :
    ((∃ c ∈ getAllComics sampleStore, comicHasGenre "brave" c = true) →
      checkGenreUsage ⟨["brave"], [], []⟩ (getAllComics sampleStore)
          GenreCategory.personality 0 "brave" =
        (⟨["brave"], [], []⟩,
          dedupByFolderPath
            ((getAllComics sampleStore).filter (comicHasGenre "brave")) []) ∧
      dedupByFolderPath ((getAllComics sampleStore).filter (comicHasGenre "brave")) [] ≠ []) ∧
    ((∀ c ∈ getAllComics sampleStore, comicHasGenre "brave" c = false) →
      checkGenreUsage ⟨["brave"], [], []⟩ (getAllComics sampleStore)
          GenreCategory.personality 0 "brave" =
        (GenreCatalog.setCategory ⟨["brave"], [], []⟩ GenreCategory.personality
          ((GenreCatalog.category ⟨["brave"], [], []⟩ GenreCategory.personality).eraseIdx 0),
          []) ∧
      ((GenreCatalog.category ⟨["brave"], [], []⟩ GenreCategory.personality).eraseIdx 0).length =
        (GenreCatalog.category ⟨["brave"], [], []⟩ GenreCategory.personality).length - 1) :=
  C5_tag_deletion_safety sampleStore ⟨["brave"], [], []⟩
    GenreCategory.personality 0 "brave" (by decide) (by decide)

/-- C6 (amended): when the sanitized old and new titles differ, a rename
request whose old path is missing or whose computed new sibling path
already exists returns the failure value and leaves the whole folder map
(and hence the old folder and its files) untouched; `renameComicFolder`
itself never writes to the entity store.  When the sanitized titles are
equal the operation instead short-circuits to a no-op success without
any existence check. -/
theorem C6_rename_failure_no_mutation
    (fs : FolderFS) (oldTitle newTitle oldPath : String)
    (hdiff : sanitizeTitle oldTitle ≠ sanitizeTitle newTitle)
    (hfail : fs.existsPath oldPath = false ∨
      fs.existsPath (pathDirname oldPath ++ "/" ++ sanitizeTitle newTitle) = true) :
    renameComicFolder fs oldTitle newTitle oldPath = (fs, none) := by
  rcases hfail with h | h <;>
    by_cases h₂ : fs.existsPath oldPath = true <;>
      simp_all [renameComicFolder, renameFolderIpc, hdiff]

/-- C6 witness: renaming onto an existing sibling path fails without
mutation. -/
theorem C6_rename_failure_no_mutation_witness :
    renameComicFolder [("/a/Old", ["f.jpg"]), ("/a/New", [])] "Old" "New" "/a/Old" =
      ([("/a/Old", ["f.jpg"]), ("/a/New", [])], none) :=
  C6_rename_failure_no_mutation [("/a/Old", ["f.jpg"]), ("/a/New", [])]
    "Old" "New" "/a/Old" (by decide) (Or.inr (by decide))

/-- C6 counterexample: when the titles sanitize to the same name, a
rename request whose old folder path does not exist returns the old path
as a success value instead of the failure the claim requires. -/
theorem C6_counterexample :
    FolderFS.existsPath [] "/x" = false ∧
    renameComicFolder [] "A" "A" "/x" = ([], some "/x") ∧
    (renameComicFolder [] "A" "A" "/x").2 ≠ none := by
  refine ⟨rfl, by decide, by decide⟩

/-- C7 (amended): an unreadable root makes the live `read-directory`
handler return an empty comic list with an EMPTY error list (the
exception is caught inside `scanForComics` and only logged), while the
standalone `scanDirectoryForComics` helper of `scanDirectory.cjs`
returns an empty comic list with exactly one error. -/
theorem C7_unreadable_root
    (name mtime directoryPath : String) (entries : List FSEntry) :
    readDirectoryHandler (FSEntry.dir name false mtime entries) directoryPath =
      { comics := [], totalComics := 0, errors := [] } ∧
    (scanDirectoryForComicsCjs (FSEntry.dir name false mtime entries)
        directoryPath).comics = [] ∧
    (scanDirectoryForComicsCjs (FSEntry.dir name false mtime entries)
        directoryPath).errors.length = 1 := by
  refine ⟨?_, rfl, rfl⟩
  simp [readDirectoryHandler, scanForComics]

/-- C7 counterexample: for an unreadable root over a populated library
the handler reports zero errors, not the single error the claim
requires. -/
theorem C7_counterexample :
    (readDirectoryHandler
        (FSEntry.dir "Lib" false "t" [FSEntry.dir "A" true "t" [FSEntry.file "a.jpg"]])
        "/Lib").comics = [] ∧
    (readDirectoryHandler
        (FSEntry.dir "Lib" false "t" [FSEntry.dir "A" true "t" [FSEntry.file "a.jpg"]])
        "/Lib").errors.length = 0 ∧
    (0 : Nat) ≠ 1 := by
  refine ⟨rfl, rfl, by decide⟩

/-- C8 (amended): `saveComic` writes the per-id file first and touches
the index only afterwards and only when that first write succeeded, in
which case the in-memory index entry becomes
`{title, folderPath, lastModified := now}` and the call returns `true`
even when the subsequent index write fails (whose failure also leaves
the previously persisted index file as it was — no rollback, and no
propagation of the failure).  When the per-id write fails nothing is
changed and `false` is returned. -/
theorem C8_save_order_and_result
    (env : String → Bool) (st : FileStore) (comic : ComicData) (now : String) :
    (env (comicFileName comic.id) = true →
      (saveComic env st comic now).2.2 =
        [(comicFileName comic.id, true), (indexFileName, env indexFileName)] ∧
      getKey comic.id (saveComic env st comic now).1.comicFiles = some comic ∧
      (saveComic env st comic now).1.libraryIndex.comics =
        setKey comic.id ⟨comic.title, comic.folderPath, now⟩ st.libraryIndex.comics ∧
      (saveComic env st comic now).2.1 = true ∧
      (saveComic env st comic now).1.diskIndex =
        (if env indexFileName = true then (saveComic env st comic now).1.libraryIndex
         else st.diskIndex)) ∧
    (env (comicFileName comic.id) = false →
      saveComic env st comic now = (st, false, [(comicFileName comic.id, false)])) := by
  constructor
  · intro h
    refine ⟨?_, ?_, ?_, ?_, ?_⟩ <;>
      simp [saveComic, h, getKey_setKey_self]
  · intro h
    simp [saveComic, h]

/-- C8 witness: the theorem applied with every write succeeding. -/
theorem C8_save_order_and_result_witness :
    (saveComic (fun _ => true) sampleStore sampleTaggedComic "now").2.2 =
      [(comicFileName sampleTaggedComic.id, true), (indexFileName, (fun (_ : String) => true) indexFileName)] ∧
    getKey sampleTaggedComic.id
      (saveComic (fun _ => true) sampleStore sampleTaggedComic "now").1.comicFiles =
        some sampleTaggedComic ∧
    (saveComic (fun _ => true) sampleStore sampleTaggedComic "now").1.libraryIndex.comics =
      setKey sampleTaggedComic.id
        ⟨sampleTaggedComic.title, sampleTaggedComic.folderPath, "now"⟩
        sampleStore.libraryIndex.comics ∧
    (saveComic (fun _ => true) sampleStore sampleTaggedComic "now").2.1 = true ∧
    (saveComic (fun _ => true) sampleStore sampleTaggedComic "now").1.diskIndex =
      (if (fun (_ : String) => true) indexFileName = true then
        (saveComic (fun _ => true) sampleStore sampleTaggedComic "now").1.libraryIndex
       else sampleStore.diskIndex) :=
  (C8_save_order_and_result (fun _ => true) sampleStore sampleTaggedComic "now").1 rfl

/-- C8 counterexample: when the per-id write succeeds but the index
write fails, an I/O write failure has occurred during the save, yet
`saveComic` still returns `true` rather than the `false` the claim
requires. -/
theorem C8_counterexample :
    (saveComic (fun p => !(p == indexFileName))
        { comicFiles := [], libraryIndex := ⟨[], "", 0⟩, diskIndex := ⟨[], "", 0⟩ }
        sampleTaggedComic "now").2.1 = true ∧
    (indexFileName, false) ∈
      (saveComic (fun p => !(p == indexFileName))
        { comicFiles := [], libraryIndex := ⟨[], "", 0⟩, diskIndex := ⟨[], "", 0⟩ }
        sampleTaggedComic "now").2.2 ∧
    true ≠ false := by
  refine ⟨by decide, by decide, by decide⟩

/-- C9: `deleteComic` removes only the requested id from the in-memory
index and persists that updated index (assuming the index write
succeeds), returning `true`; the per-id comic files are untouched and
every other index entry is unchanged. -/
theorem C9_delete_removes_only_index_entry
    (env : String → Bool) (st : FileStore) (comicId : String)
    (hidxw : env indexFileName = true) :
    (deleteComic env st comicId).1.comicFiles = st.comicFiles ∧
    getKey comicId (deleteComic env st comicId).1.libraryIndex.comics = none ∧
    (∀ k, k ≠ comicId →
      getKey k (deleteComic env st comicId).1.libraryIndex.comics =
        getKey k st.libraryIndex.comics) ∧
    (deleteComic env st comicId).1.diskIndex =
      (deleteComic env st comicId).1.libraryIndex ∧
    (deleteComic env st comicId).2.1 = true := by
  refine ⟨rfl, ?_, ?_, ?_, rfl⟩
  · simp [deleteComic, getKey_delKey_self]
  · intro k hk
    simp [deleteComic, getKey_delKey_ne k comicId hk]
  · simp [deleteComic, hidxw]

/-- C9 witness: the theorem applied to the sample store. -/
theorem C9_delete_removes_only_index_entry_witness :
    (deleteComic (fun _ => true) sampleStore "c1").1.comicFiles =
      sampleStore.comicFiles ∧
    getKey "c1" (deleteComic (fun _ => true) sampleStore "c1").1.libraryIndex.comics =
      none ∧
    (∀ k, k ≠ "c1" →
      getKey k (deleteComic (fun _ => true) sampleStore "c1").1.libraryIndex.comics =
        getKey k sampleStore.libraryIndex.comics) ∧
    (deleteComic (fun _ => true) sampleStore "c1").1.diskIndex =
      (deleteComic (fun _ => true) sampleStore "c1").1.libraryIndex ∧
    (deleteComic (fun _ => true) sampleStore "c1").2.1 = true :=
  C9_delete_removes_only_index_entry (fun _ => true) sampleStore "c1" rfl

/-- The per-comic outcome of merging reading progress: a comic without a
progress entry is returned unchanged; one with an entry keeps every
field except `lastRead`, `lastReadDate` and `currentPage`, which take
the progress values (with the stored fallbacks). -/
def progressApplied (progress : List (String × ProgressEntry)) (c₀ c : Comic) : Prop :=
  match getKey c₀.id progress with
  | none => c = c₀
  | some p =>
    c.id = c₀.id ∧ c.title = c₀.title ∧ c.author = c₀.author ∧
    c.genre = c₀.genre ∧ c.comicGenres = c₀.comicGenres ∧
    c.description = c₀.description ∧ c.genres = c₀.genres ∧
    c.coverImage = c₀.coverImage ∧ c.totalPages = c₀.totalPages ∧
    c.folderPath = c₀.folderPath ∧ c.pages = c₀.pages ∧
    c.lastRead = p.lastRead ∧
    c.lastReadDate = (match p.lastRead with
      | some d => some d
      | none => c₀.lastReadDate) ∧
    c.currentPage = p.currentPage.getD c₀.currentPage

/-- C10: merging reading progress maps each comic to a record related to
it by `progressApplied`: comics without a progress entry are unchanged,
and comics with one change only `lastRead`, `lastReadDate` and
`currentPage`. -/
theorem C10_merge_progress_frame (comics : List Comic)
    (progress : List (String × ProgressEntry)) :
    List.Forall₂ (progressApplied progress) comics
      (mergeReadingProgress comics progress) := by
  induction comics with
  | nil => exact List.Forall₂.nil
  | cons c rest ih =>
    refine List.Forall₂.cons ?_ ih
    cases h : getKey c.id progress with
    | none => simp [progressApplied, mergeReadingProgress, h]
    | some p => simp [progressApplied, mergeReadingProgress, h]

end KomiReader
